import Mathlib

/-!
# Verification of the Google-Research-MCP navigation / extraction core

A shallow embedding of the repository's engineering core:

* `ContentExtractor` (fetch + content cache, `src/services/content-extractor.service.ts`),
* `EnhancedContentExtractor` (`enhanceContent`: link/image/structured-data enhancement),
* `BrowsingSessionService` (session map, `createSession` / `getSession` / `visitUrl`),
* `NavigationService` (`followLinks`, `followLinksRecursive`,
  `calculateLinkRelevance`, `calculateRelevanceScore`).

Network I/O is abstracted by oracles (`String → Option …`); JS numbers are
modelled as exact rationals `ℚ` (the scoring constants are exact decimals and
the modelled arithmetic stays well inside the range where IEEE rounding is
the only divergence, which this embedding abstracts away); JS `Map` objects
are modelled as insertion-ordered association lists, matching JS `Map`
iteration order.  Wall-clock time is passed explicitly where the code reads
`Date.now()`.  String operations are modelled over the character lists of
Lean strings (ASCII case folding, as in the data the service manipulates).
-/

namespace GoogleResearchMcp

/-! ## String helpers (JS built-ins used by the source) -/

/-- JS `String.prototype.toLowerCase` (ASCII case folding). -/
def jsToLower (s : String) : String :=
  String.mk (s.data.map Char.toLower)

/-- JS `String.prototype.includes`: substring containment — the needle is a
prefix of some suffix of the haystack. -/
def includes (haystack needle : String) : Bool :=
  (List.range (haystack.data.length + 1)).any
    (fun i => needle.data.isPrefixOf (haystack.data.drop i))

/-- JS `String.prototype.startsWith`. -/
def startsWith (s pre : String) : Bool :=
  pre.data.isPrefixOf s.data

/-- Scheme prefix of an http(s) URL, as accepted by the platform `URL` parser
(the source only ever navigates http(s) URLs). -/
def schemeOf (url : String) : Option String :=
  if startsWith url "https://" then some "https"
  else if startsWith url "http://" then some "http"
  else none

/-- Modelled from the platform `new URL(u).hostname`, restricted to http(s)
URLs: the text between the scheme separator and the first `/`, `:`, `?` or
`#`.  `none` models the `TypeError` the constructor throws on input it cannot
parse. -/
def hostname (url : String) : Option String :=
  match schemeOf url with
  | none => none
  | some s =>
    let rest := url.data.drop (s.length + 3)
    let h := rest.takeWhile (fun c => !(c == '/' || c == ':' || c == '?' || c == '#'))
    if h.isEmpty then none else some (String.mk h)

/-- `ContentExtractor.isValidUrl`: `new URL(url)` succeeds. -/
def isValidUrl (url : String) : Bool :=
  (hostname url).isSome

/-- Modelled from the platform resolver `new URL(rel, base).href` as used in
`NavigationService.followLinks`: an href that already starts with `http` is
kept; otherwise it is resolved against the base URL's scheme and host
(path-relative resolution is simplified to host-rooted concatenation, which no
claim depends on).  When the base cannot be parsed the original href is kept,
mirroring the `try`/`catch` around the resolution. -/
def resolveUrl (base rel : String) : String :=
  if startsWith rel "http" then rel
  else
    match schemeOf base, hostname base with
    | some s, some h =>
      if startsWith rel "/" then s ++ "://" ++ h ++ rel
      else s ++ "://" ++ h ++ "/" ++ rel
    | _, _ => rel

/-- JS `\w` character class (used in `replace(/[^\w\s]/g, '')`). -/
def isWordChar (c : Char) : Bool :=
  c.isAlphanum || c == '_'

/-- `replace(/[^\w\s]/g, '')`: keep word characters and whitespace. -/
def stripNonWord (s : String) : String :=
  String.mk (s.data.filter (fun c => isWordChar c || c.isWhitespace))

/-- `split(/\s+/)`, up to the empty fragments that every use site discards by
a minimum-length filter. -/
def splitWsChars : List Char → List Char → List String
  | [], acc => [String.mk acc.reverse]
  | c :: rest, acc =>
    if c.isWhitespace then String.mk acc.reverse :: splitWsChars rest []
    else splitWsChars rest (c :: acc)

/-- `split(/\s+/)` on a string. -/
def splitWs (s : String) : List String :=
  splitWsChars s.data []

/-- Does the reversed current fragment end in sentence punctuation?  (The
lookbehind `(?<=[.!?])` of the sentence-split regex.) -/
def endsSentence : List Char → Bool
  | p :: _ => p == '.' || p == '!' || p == '?'
  | [] => false

/-- `split(/(?<=[.!?])\s+/)`: cut the text after sentence punctuation
followed by a whitespace run, consuming the whole run.  `cur` is the current
fragment reversed, `inSep` records that a separator run is being consumed. -/
def splitSentencesGo : List Char → List Char → Bool → List String
  | [], cur, _ => [String.mk cur.reverse]
  | c :: rest, cur, inSep =>
    if inSep then
      if c.isWhitespace then splitSentencesGo rest cur true
      else splitSentencesGo rest [c] false
    else if c.isWhitespace && endsSentence cur then
      String.mk cur.reverse :: splitSentencesGo rest [] true
    else
      splitSentencesGo rest (c :: cur) false

/-- `content.split(/(?<=[.!?])\s+/)`. -/
def splitSentences (s : String) : List String :=
  splitSentencesGo s.data [] false

/-- JS `Set` insertion-order deduplication (`Array.from(new Set(…))`). -/
def dedupKeepOrder (l : List String) : List String :=
  l.foldl (fun acc w => if acc.contains w then acc else acc ++ [w]) []

/-- Does `kw` match `text` at position `i` with `\b` word boundaries on both
sides?  Models one match of the regex `\b kw \b`. -/
def wordMatchAt (text kw : List Char) (i : ℕ) : Bool :=
  decide (kw = (text.drop i).take kw.length) &&
  (decide (i = 0) || !isWordChar (text.getD (i - 1) ' ')) &&
  (decide (text.length ≤ i + kw.length) || !isWordChar (text.getD (i + kw.length) ' '))

/-- Number of matches of `new RegExp('\\b' + kw + '\\b', 'gi')` against
already-lowercased text (`text.match(regex)`), modelled as the number of
boundary-delimited match positions. -/
def countWordOccur (text kw : String) : ℕ :=
  ((List.range text.data.length).filter (fun i => wordMatchAt text.data kw.data i)).length

/-! ## Data model (`src/types/enhanced-types.ts`) -/

/-- `ExtractedLink` (scoring-relevant fields; the optional
`isRelevant`/`visited` flags are read nowhere in the modelled code). -/
structure ExtractedLink where
  url : String
  text : String
  context : String
deriving Repr, DecidableEq

/-- `ExtractedImage` (fields beyond the identifying ones are not read by any
modelled code path). -/
structure ExtractedImage where
  url : String
  alt : String
  context : String
deriving Repr, DecidableEq

/-- `StructuredData`.  The four element types (`TableData`, `ListData`,
`HierarchyData`, `KeyValuePair`) are abstracted to their textual rendering,
which is all the modelled code ever threads through. -/
structure StructuredData where
  tables : List String
  lists : List String
  hierarchies : List String
  keyValuePairs : List (String × String)
deriving Repr, DecidableEq

/-- `OutputFormat` from `src/types.ts`. -/
inductive OutputFormat where
  | markdown
  | html
  | text
deriving Repr, DecidableEq

/-- The string interpolation `${format}` of a format value. -/
def OutputFormat.str : OutputFormat → String
  | .markdown => "markdown"
  | .html => "html"
  | .text => "text"

/-- `WebpageContent` (`src/types.ts`): the fields read by the modelled code
paths.  The derived statistics (`stats`, `content_preview`, `meta_tags`) are
pure functions of `content` read by no modelled claim. -/
structure WebpageContent where
  url : String
  title : String
  description : String
  content : String
  summary : String
  format : OutputFormat
deriving Repr, DecidableEq

/-- `EnhancedWebpageContent extends WebpageContent`. -/
structure EnhancedWebpageContent extends WebpageContent where
  links : List ExtractedLink
  images : List ExtractedImage
  structuredData : StructuredData
deriving Repr, DecidableEq

/-! ## `NavigationService.calculateLinkRelevance`
(`src/services/navigation.service.ts`)

The JS decimal constants are written `mkRat n 10` (exact values of the
literals `0.1` … `0.7`). -/

/-- Per-keyword accumulation step of `calculateLinkRelevance`: `+0.3` on a
match in anchor text or context, `+0.2` on a match in the target URL, `+0.2`
on a match in the (truthy) context window. -/
def linkKeywordStep (link : ExtractedLink) (linkText : String) (s : ℚ) (keyword : String) : ℚ :=
  let keywordLower := jsToLower keyword
  let s := if includes linkText keywordLower then s + mkRat 3 10 else s
  let s := if includes (jsToLower link.url) keywordLower then s + mkRat 2 10 else s
  if link.context ≠ "" ∧ includes (jsToLower link.context) keywordLower then s + mkRat 2 10 else s

/-- The same-domain bonus of `calculateLinkRelevance`: `+0.1` when both URLs
parse and their hostnames coincide, with parse failures ignored (the
`try`/`catch` around the `new URL` calls). -/
def domainBonus (linkUrl parentUrl : String) (score : ℚ) : ℚ :=
  match hostname linkUrl, hostname parentUrl with
  | some linkDomain, some parentDomain =>
    if linkDomain = parentDomain then score + mkRat 1 10 else score
  | _, _ => score

/-- `NavigationService.calculateLinkRelevance(link, keywords, parentContent)`.
Returns the flat `0.6` on an empty keyword list; otherwise accumulates the
per-keyword signals, adds `0.1` for a same-domain target, halves on anchor
text shorter than 5 characters, adds `0.1` on anchor text longer than 20
characters, and finally returns `Math.min(score / keywords.length, 1.0)`. -/
def calculateLinkRelevance (link : ExtractedLink) (keywords : List String)
    (parentContent : EnhancedWebpageContent) : ℚ :=
  if keywords.length = 0 then mkRat 6 10
  else
    let linkText := jsToLower (link.text ++ " " ++ link.context)
    let score := keywords.foldl (linkKeywordStep link linkText) 0
    let score := domainBonus link.url parentContent.url score
    let score := if link.text.length < 5 then score * mkRat 5 10 else score
    let score := if 20 < link.text.length then score + mkRat 1 10 else score
    min (score / keywords.length) 1

/-- Per-keyword contribution of `calculateLinkRelevance`, as a sum. -/
def linkKeywordContrib (link : ExtractedLink) (linkText : String) (keyword : String) : ℚ :=
  let keywordLower := jsToLower keyword
  (if includes linkText keywordLower then mkRat 3 10 else 0) +
    (if includes (jsToLower link.url) keywordLower then mkRat 2 10 else 0) +
    (if link.context ≠ "" ∧ includes (jsToLower link.context) keywordLower then mkRat 2 10 else 0)

/-! ## Reference formula of spec §4.3 -/

/-- Clamp to the unit interval, the spec's "clamp to [0,1]". -/
def clamp01 (x : ℚ) : ℚ :=
  min (max x 0) 1

/-- The link-relevance formula exactly as spec §4.3 words it: the per-keyword
mean is clamped to `[0,1]` *first*, then the domain bonus, the short-text
halving and the long-text bonus are applied, and the final result is clamped
again.  (Occurrence in the context window requires a nonempty window,
matching the truthiness test the code applies.) -/
def specLinkRelevance (link : ExtractedLink) (keywords : List String)
    (sourceDoc : EnhancedWebpageContent) : ℚ :=
  let linkText := jsToLower (link.text ++ " " ++ link.context)
  let base :=
    if keywords.length = 0 then mkRat 6 10
    else clamp01 (((keywords.map (linkKeywordContrib link linkText)).sum) / keywords.length)
  let withDomain := domainBonus link.url sourceDoc.url base
  let adjusted := if link.text.length < 5 then withDomain * mkRat 5 10 else withDomain
  let adjusted := if 20 < link.text.length then adjusted + mkRat 1 10 else adjusted
  clamp01 adjusted

/-- The amended reference formula: identical per-keyword signals, but the
domain bonus and both anchor-length adjustments act on the raw keyword sum
*before* the division by the keyword count, and the only clamp is a single
upper clamp at 1 applied to the quotient (the raw sum is nonnegative, so a
lower clamp never fires). -/
def specLinkRelevanceAmended (link : ExtractedLink) (keywords : List String)
    (sourceDoc : EnhancedWebpageContent) : ℚ :=
  if keywords.length = 0 then mkRat 6 10
  else
    let linkText := jsToLower (link.text ++ " " ++ link.context)
    let raw := (keywords.map (linkKeywordContrib link linkText)).sum
    let raw := domainBonus link.url sourceDoc.url raw
    let raw := if link.text.length < 5 then raw * mkRat 5 10 else raw
    let raw := if 20 < link.text.length then raw + mkRat 1 10 else raw
    min (raw / keywords.length) 1

/-! ## `NavigationService` page-level helpers -/

/-- Per-keyword step of `calculateRelevanceScore`: frequency points (`0.1`
per word-boundary match, capped at `0.3`), a `0.2` title bonus and a `0.1`
description bonus, added only when the keyword matches at all. -/
def pageKeywordStep (content : EnhancedWebpageContent) (textToAnalyze : String)
    (s : ℚ) (keyword : String) : ℚ :=
  let keywordLower := jsToLower keyword
  let matchCount := countWordOccur textToAnalyze keywordLower
  if matchCount ≠ 0 then
    let keywordScore := min ((matchCount : ℚ) * mkRat 1 10) (mkRat 3 10)
    let keywordScore :=
      if includes (jsToLower content.title) keywordLower then keywordScore + mkRat 2 10
      else keywordScore
    let keywordScore :=
      if content.description ≠ "" ∧ includes (jsToLower content.description) keywordLower then
        keywordScore + mkRat 1 10
      else keywordScore
    s + keywordScore
  else s

/-- `NavigationService.calculateRelevanceScore(content, keywords)`: the
page-level relevance used for entries of `pagesVisited` — `0.7` without
keywords, otherwise keyword frequency/title/description accumulation
normalised by the keyword count and capped at `1.0`. -/
def calculateRelevanceScore (content : EnhancedWebpageContent) (keywords : List String) : ℚ :=
  if keywords.length = 0 then mkRat 7 10
  else
    let textToAnalyze :=
      jsToLower (content.title ++ " " ++ content.description ++ " " ++ content.content)
    let score := keywords.foldl (pageKeywordStep content textToAnalyze) 0
    min (score / keywords.length) 1

/-- `NavigationService.generatePageSummary`: the first three sentences of the
content, or a stock line when the content is empty. -/
def generatePageSummary (content : EnhancedWebpageContent) : String :=
  if content.content ≠ "" then
    let sentences := splitSentences content.content
    String.intercalate " " (sentences.take 3) ++ (if 3 < sentences.length then "..." else "")
  else
    "Summary of " ++ content.title

/-- `content.summary || generatePageSummary(content)` (the
`NavigationService` variant). -/
def summaryOrGenerated (content : EnhancedWebpageContent) : String :=
  if content.summary ≠ "" then content.summary else generatePageSummary content

/-- `BrowsingSessionService.generatePageSummary`: like the
`NavigationService` one but keeping the first *two* sentences. -/
def sessionPageSummary (content : EnhancedWebpageContent) : String :=
  if content.content ≠ "" then
    let sentences := splitSentences content.content
    String.intercalate " " (sentences.take 2) ++ (if 2 < sentences.length then "..." else "")
  else
    "Summary of " ++ content.title

/-- `content.summary || generatePageSummary(content)` inside
`BrowsingSessionService.visitUrl`. -/
def sessionSummaryOrGenerated (content : EnhancedWebpageContent) : String :=
  if content.summary ≠ "" then content.summary else sessionPageSummary content

/-- One page entry of `FollowLinksResult.pagesVisited`. -/
structure PageVisit where
  url : String
  title : String
  relevance : ℚ
  summary : String
deriving Repr, DecidableEq

/-- `NavigationService.extractRelatedTopics`: words of length `> 3` from the
visited pages' lowercased, punctuation-stripped titles, deduplicated in
first-occurrence order, first ten. -/
def extractRelatedTopics (pagesVisited : List PageVisit) : List String :=
  let words := pagesVisited.flatMap
    (fun page => (splitWs (stripNonWord (jsToLower page.title))).filter
      (fun word => 3 < word.length))
  (dedupKeepOrder words).take 10

/-! ## Content cache (`ContentExtractor`, `content-extractor.service.ts`)

The JS `Map<string, ContentCacheEntry>` is an insertion-ordered association
list; `Map.set` of an existing key updates in place, of a fresh key appends. -/

/-- `ContentCacheEntry`: insertion timestamp (`Date.now()`, in ms) plus the
stored document. -/
structure ContentCacheEntry where
  timestamp : ℕ
  content : WebpageContent
deriving Repr, DecidableEq

/-- The content cache: JS `Map` in iteration (insertion) order. -/
abbrev ContentCache := List (String × ContentCacheEntry)

/-- JS `Map.get`. -/
def mapGet (cache : ContentCache) (key : String) : Option ContentCacheEntry :=
  (cache.find? (fun p => p.1 == key)).map (fun p => p.2)

/-- JS `Map.set`: update in place when the key exists, append otherwise. -/
def mapSet (cache : ContentCache) (key : String) (entry : ContentCacheEntry) : ContentCache :=
  if cache.any (fun p => p.1 == key) then
    cache.map (fun p => if p.1 == key then (key, entry) else p)
  else cache ++ [(key, entry)]

/-- JS `Map.delete`. -/
def mapDelete (cache : ContentCache) (key : String) : ContentCache :=
  cache.filter (fun p => !(p.1 == key))

/-- One comparison step of the oldest-entry scan: keep the strictly older
entry, resolving ties to the earlier one. -/
def olderEntry (acc : Option (String × ContentCacheEntry)) (p : String × ContentCacheEntry) :
    Option (String × ContentCacheEntry) :=
  match acc with
  | none => some p
  | some q => if p.2.timestamp < q.2.timestamp then some p else some q

/-- `Array.from(entries).sort((a, b) => a[1].timestamp - b[1].timestamp)[0]`:
the earliest-inserted entry among those with the least timestamp (JS sort is
stable, so ties resolve to iteration order). -/
def oldestEntry (cache : ContentCache) : Option (String × ContentCacheEntry) :=
  cache.foldl olderEntry none

/-- `cacheTTL`: 30 minutes in milliseconds. -/
def cacheTTL : ℕ := 30 * 60 * 1000

/-- `ContentExtractor.generateCacheKey`. -/
def generateCacheKey (url : String) (format : OutputFormat) : String :=
  url ++ "|" ++ format.str

/-- `ContentExtractor.isCacheValid`: `now - entry.timestamp < cacheTTL`. -/
def isCacheValid (entry : ContentCacheEntry) (now : ℕ) : Bool :=
  now - entry.timestamp < cacheTTL

/-- `ContentExtractor.cacheContent`: store under the cache key and, when the
entry count exceeds 50, delete the single oldest-timestamp entry. -/
def cacheContent (cache : ContentCache) (url : String) (format : OutputFormat)
    (now : ℕ) (content : WebpageContent) : ContentCache :=
  let cache' := mapSet cache (generateCacheKey url format) ⟨now, content⟩
  if 50 < cache'.length then
    match oldestEntry cache' with
    | some oldest => mapDelete cache' oldest.1
    | none => cache'
  else cache'

/-- Errors of `ContentExtractor.extractContent`: the `Invalid URL provided`
throw and the rethrown axios failure (`Failed to fetch webpage`, covering
network errors, the 30 s timeout and the size bound). -/
inductive ExtractError where
  | invalidUrl
  | fetchFailed
deriving Repr, DecidableEq

/-- The network-and-parse oracle: what fetching plus readability/fallback
extraction of a URL produces, or `none` when axios throws
(timeout/network/size).  Parsing is deterministic, so one oracle models both
calls of the same URL. -/
def Net : Type := String → Option WebpageContent

/-- The fetched document finalised as `extractContent` builds it (its `url`
and `format` fields come from the arguments). -/
def finalizeDoc (doc : WebpageContent) (url : String) (format : OutputFormat) : WebpageContent :=
  { doc with url := url, format := format }

/-- `ContentExtractor.extractContent(url, format)` at time `now`: validate,
consult the cache, on a miss fetch and cache.  Returns the outcome, the cache
afterwards, and whether network I/O was attempted. -/
def extractContent (net : Net) (now : ℕ) (cache : ContentCache)
    (url : String) (format : OutputFormat) :
    Except ExtractError WebpageContent × ContentCache × Bool :=
  if !isValidUrl url then (.error .invalidUrl, cache, false)
  else
    let cacheKey := generateCacheKey url format
    let cachedContent := mapGet cache cacheKey
    match cachedContent with
    | some entry =>
      if isCacheValid entry now then (.ok entry.content, cache, false)
      else
        match net url with
        | none => (.error .fetchFailed, cache, true)
        | some doc =>
          let content := finalizeDoc doc url format
          (.ok content, cacheContent cache url format now content, true)
    | none =>
      match net url with
      | none => (.error .fetchFailed, cache, true)
      | some doc =>
        let content := finalizeDoc doc url format
        (.ok content, cacheContent cache url format now content, true)

/-! ## `EnhancedContentExtractor` (`enhanced-content-extractor.service.ts`) -/

/-- The enhancement oracle: what the secondary `fetch(url)` plus cheerio/JSDOM
parsing of `enhanceContent` yields for a URL — the extracted links, images and
structured data — or `none` when any step of that `try` block throws. -/
structure Enhancements where
  links : List ExtractedLink
  images : List ExtractedImage
  structuredData : StructuredData

/-- The enhancement oracle type. -/
def Enh : Type := String → Option Enhancements

/-- `EnhancedContentExtractor.enhanceContent(baseContent, url)`: spread the
base content and attach the enhancement results; on any error, fall back to
the base content with empty links, images and structured data.  Never
throws. -/
def enhanceContent (enh : Enh) (baseContent : WebpageContent) (url : String) :
    EnhancedWebpageContent :=
  match enh url with
  | some e =>
    { toWebpageContent := baseContent, links := e.links, images := e.images,
      structuredData := e.structuredData }
  | none =>
    { toWebpageContent := baseContent, links := [], images := [],
      structuredData := ⟨[], [], [], []⟩ }

/-- `EnhancedContentExtractor.extractEnhancedContent(url, format)`: base
extraction through the parent class, then enhancement. -/
def extractEnhancedContent (net : Net) (enh : Enh) (now : ℕ) (cache : ContentCache)
    (url : String) (format : OutputFormat) :
    Except ExtractError EnhancedWebpageContent × ContentCache × Bool :=
  match extractContent net now cache url format with
  | (.ok base, cache', fetched) => (.ok (enhanceContent enh base url), cache', fetched)
  | (.error e, cache', fetched) => (.error e, cache', fetched)

/-! ## `BrowsingSessionService` (`browsing-session.service.ts`)

The session map is modelled like the content cache, as an insertion-ordered
association list.  Activity timestamps and the expiry sweep are outside every
modelled claim and are omitted; `uuidv4()` is modelled by a counter-driven
fresh-id supply. -/

/-- A history entry (`BrowsingHistoryPage`; `visitTime` omitted with the
other wall-clock session fields). -/
structure BrowsingHistoryPage where
  url : String
  title : String
  summary : String
  keywords : List String
  parentUrl : Option String
deriving Repr, DecidableEq

/-- A browsing session (`BrowsingSession`; the wall-clock fields
`startTime`/`lastActivityTime` omitted, see above). -/
structure BrowsingSession where
  id : String
  topic : Option String
  currentUrl : Option String
  history : List BrowsingHistoryPage
  bookmarks : List String
  sessionSummary : String
  researchQuestions : List String
deriving Repr, DecidableEq

/-- The session service state: the `sessions` map plus the fresh-id supply
standing in for `uuidv4()`. -/
structure SessionStore where
  sessions : List (String × BrowsingSession)
  nextId : ℕ
deriving Repr, DecidableEq

/-- The modelled `uuidv4()`: a fresh identifier from the supply. -/
def freshSessionId (n : ℕ) : String :=
  "uuid-" ++ Nat.repr n

/-- `BrowsingSessionService.createSession(topic?)`: a new session stored
under a fresh id. -/
def createSession (store : SessionStore) (topic : Option String) :
    BrowsingSession × SessionStore :=
  let sessionId := freshSessionId store.nextId
  let session : BrowsingSession :=
    { id := sessionId, topic := topic, currentUrl := none, history := [], bookmarks := [],
      sessionSummary :=
        match topic with
        | some t => "Research session on \"" ++ t ++ "\""
        | none => "New browsing session",
      researchQuestions := [] }
  (session, { sessions := store.sessions ++ [(sessionId, session)], nextId := store.nextId + 1 })

/-- `BrowsingSessionService.getSession(sessionId)` (its `lastActivityTime`
refresh touches only the omitted wall-clock field). -/
def getSession (store : SessionStore) (sessionId : String) : Option BrowsingSession :=
  ((store.sessions.find? (fun p => p.1 == sessionId))).map (fun p => p.2)

/-- Replace a session in the map (the code mutates the session object the
map already holds). -/
def setSession (store : SessionStore) (sessionId : String) (session : BrowsingSession) :
    SessionStore :=
  { store with
    sessions := store.sessions.map (fun p => if p.1 == sessionId then (sessionId, session) else p) }

/-- `BrowsingSessionService.updateSessionSummary`: regenerate the session
summary from the history (headline, page count, last five pages). -/
def updateSessionSummary (session : BrowsingSession) : BrowsingSession :=
  if session.history.length = 0 then session
  else
    let headline :=
      match session.topic with
      | some t => "Research session on \"" ++ t ++ "\""
      | none => "Research session"
    let recentPages := session.history.drop (session.history.length - 5)
    let pageLines := recentPages.foldl
      (fun acc page => acc ++ "- " ++ page.title ++ " (" ++ page.url ++ ")\n") ""
    { session with
      sessionSummary :=
        headline ++ " has explored " ++ Nat.repr session.history.length ++
          " pages.\n\nKey pages visited:\n" ++ pageLines }

/-- `BrowsingSessionService.extractKeywords(content)`: length-filtered title
words plus the first five length-filtered description words, deduplicated,
first ten. -/
def extractKeywords (content : EnhancedWebpageContent) : List String :=
  let titleWords :=
    if content.title ≠ "" then
      (splitWs (stripNonWord (jsToLower content.title))).filter (fun w => 3 < w.length)
    else []
  let descWords :=
    if content.description ≠ "" then
      ((splitWs (stripNonWord (jsToLower content.description))).filter
        (fun w => 4 < w.length)).take 5
    else []
  (dedupKeepOrder (titleWords ++ descWords)).take 10

/-- Failures of a navigation call: the `Session … not found` throw of
`visitUrl`/`getSuggestedLinks`, a failed (re-)extraction, and the `TypeError`
of `new URL(url)` on an unparseable start URL. -/
inductive NavError where
  | sessionNotFound (sessionId : String)
  | extractFailed (url : String)
  | startUrlUnparsable (url : String)
deriving Repr, DecidableEq

/-- The extraction oracle seen by the navigation layer: what
`extractEnhancedContent(url)` resolves to, or `none` when it rejects.
(Extraction is deterministic across a traversal — the base document is
server-provided and cached.) -/
def Web : Type := String → Option EnhancedWebpageContent

/-- `BrowsingSessionService.visitUrl(sessionId, url, parentUrl?)`: look the
session up (throwing when absent), re-extract the page, append a history
entry, update the current URL and the session summary. -/
def visitUrl (web : Web) (store : SessionStore) (sessionId url : String)
    (parentUrl : Option String) : Except NavError SessionStore :=
  match getSession store sessionId with
  | none => .error (.sessionNotFound sessionId)
  | some session =>
    match web url with
    | none => .error (.extractFailed url)
    | some enhancedContent =>
      let historyEntry : BrowsingHistoryPage :=
        { url := url, title := enhancedContent.title,
          summary := sessionSummaryOrGenerated enhancedContent,
          keywords := extractKeywords enhancedContent, parentUrl := parentUrl }
      let session' := updateSessionSummary
        { session with history := session.history ++ [historyEntry], currentUrl := some url }
      .ok (setSession store sessionId session')

/-! ## `NavigationService.followLinks` (`navigation.service.ts`) -/

/-- `NavigationOptions` (`enhanced-types.ts`); the optional keyword/domain
lists are modelled as possibly-empty lists, matching the
`… && ….length > 0` guards at every use site. -/
structure NavigationOptions where
  followLinksFlag : Bool
  maxDepth : ℤ
  relevanceThreshold : ℚ
  filterByKeywords : List String
  excludeDomains : List String
  includeDomains : List String
deriving Repr, DecidableEq

/-- `FollowLinksParams` (`enhanced-types.ts`). -/
structure FollowLinksParams where
  url : String
  keywords : List String
  maxLinksToFollow : ℤ
  depth : ℤ
  stayOnDomain : Bool
deriving Repr, DecidableEq

/-- `FollowLinksResult` (`enhanced-types.ts`). -/
structure FollowLinksResult where
  startUrl : String
  pagesVisited : List PageVisit
  navigationPath : List String
  relatedTopics : List String
deriving Repr, DecidableEq

/-- A link carrying the `relevanceScore` the scoring pass spreads onto it. -/
structure ScoredLink where
  link : ExtractedLink
  relevanceScore : ℚ
deriving Repr, DecidableEq

/-- The domain filter of both scoring passes:
`includeDomains.some(domain => new URL(link.url).hostname.includes(domain))`,
false when the URL does not parse (the `catch` branch). -/
def domainAllowed (includeDomains : List String) (url : String) : Bool :=
  match hostname url with
  | some linkDomain => includeDomains.any (fun domain => includes linkDomain domain)
  | none => false

/-- The keyword filter of both scoring passes: some keyword occurs in the
lowercased anchor text + context. -/
def keywordAllowed (keywords : List String) (link : ExtractedLink) : Bool :=
  let textToCheck := jsToLower (link.text ++ " " ++ link.context)
  keywords.any (fun keyword => includes textToCheck (jsToLower keyword))

/-- Stable insertion of a link into a descending-by-score list (the JS
`sort((a, b) => b.relevanceScore - a.relevanceScore)` is required stable). -/
def insertByScore (x : ScoredLink) : List ScoredLink → List ScoredLink
  | [] => [x]
  | y :: ys =>
    if x.relevanceScore < y.relevanceScore then y :: insertByScore x ys
    else x :: y :: ys

/-- Stable descending sort by `relevanceScore`. -/
def sortByScoreDesc (links : List ScoredLink) : List ScoredLink :=
  links.foldr insertByScore []

/-- The shrinking-breadth cap of `followLinksRecursive`
(`.slice(0, Math.min(3, Math.max(1, 4 - remainingDepth)))`, the line
commented "Fewer links at deeper levels"). -/
def linkCapAtDepth (remainingDepth : ℕ) : ℕ :=
  min 3 (max 1 (4 - remainingDepth))

/-- The per-page link selection of `followLinksRecursive`: score this page's
links, filter by domain, by keywords and by the relevance threshold, sort
descending and cap at `linkCapAtDepth`. -/
def selectChildLinks (options : NavigationOptions) (content : EnhancedWebpageContent)
    (remainingDepth : ℕ) : List ScoredLink :=
  let scoredLinks := content.links.map
    (fun pageLink =>
      ScoredLink.mk pageLink (calculateLinkRelevance pageLink options.filterByKeywords content))
  let pageLinks :=
    if !options.includeDomains.isEmpty then
      scoredLinks.filter (fun sl => domainAllowed options.includeDomains sl.link.url)
    else scoredLinks
  let pageLinks :=
    if !options.filterByKeywords.isEmpty then
      pageLinks.filter (fun sl => keywordAllowed options.filterByKeywords sl.link)
    else pageLinks
  let pageLinks :=
    if 0 < options.relevanceThreshold then
      pageLinks.filter (fun sl => options.relevanceThreshold ≤ sl.relevanceScore)
    else pageLinks
  (sortByScoreDesc pageLinks).take (linkCapAtDepth remainingDepth)

/-- The state a traversal threads through `followLinksRecursive`: the global
visited-set (in insertion order), the result accumulators, and the session
store touched by `visitUrl`. -/
structure TravState where
  visitedUrls : List String
  pagesVisited : List PageVisit
  navigationPath : List String
  store : SessionStore
deriving Repr, DecidableEq

/-- The body of the `for (const link of links)` loop of
`followLinksRecursive`: skip an already-visited URL; otherwise extract the
page (a failure is caught and the link skipped), append it to the visited-set
and both result lists, recurse on its own filtered links when depth remains,
and finally record the visit in the session (its failure is caught by the
same per-link handler, after the appends). -/
def processLink (web : Web) (options : NavigationOptions) (sessionId : String)
    (recurse : String → List ScoredLink → TravState → TravState)
    (remainingDepth : ℕ) (parentUrl : String) (link : ScoredLink) (st : TravState) :
    TravState :=
  if st.visitedUrls.contains link.link.url then st
  else
    match web link.link.url with
    | none => st
    | some content =>
      let st1 : TravState :=
        { st with
          visitedUrls := st.visitedUrls ++ [link.link.url],
          pagesVisited := st.pagesVisited ++
            [{ url := link.link.url, title := content.title,
               relevance := calculateRelevanceScore content options.filterByKeywords,
               summary := summaryOrGenerated content }],
          navigationPath := st.navigationPath ++ [link.link.url] }
      let st2 :=
        if 1 ≤ remainingDepth ∧ !content.links.isEmpty then
          let sortedPageLinks := selectChildLinks options content remainingDepth
          if !sortedPageLinks.isEmpty then recurse link.link.url sortedPageLinks st1 else st1
        else st1
      match visitUrl web st2.store sessionId link.link.url (some parentUrl) with
      | .ok store' => { st2 with store := store' }
      | .error _ => st2

/-- `NavigationService.followLinksRecursive(sessionId, links, visitedUrls,
remainingDepth, options, result, parentUrl)`: no-op at depth 0, otherwise the
sequential per-link loop, recursing one level shallower on each page's own
selected links. -/
def followLinksRecursive (web : Web) (options : NavigationOptions) (sessionId : String) :
    ℕ → String → List ScoredLink → TravState → TravState
  | 0, _, _, st => st
  | remainingDepth + 1, parentUrl, links, st =>
    let recurse := followLinksRecursive web options sessionId remainingDepth
    links.foldl
      (fun acc link =>
        processLink web options sessionId recurse (remainingDepth + 1) parentUrl link acc)
      st

/-- The scoring pass of `followLinks` over the start page's links: resolve
relative URLs against the start URL (keeping the href on a resolution
failure) and attach `calculateLinkRelevance`. -/
def scoreStartLinks (startUrl : String) (keywords : List String)
    (startContent : EnhancedWebpageContent) (links : List ExtractedLink) : List ScoredLink :=
  links.map (fun link =>
    let absoluteUrl := resolveUrl startUrl link.url
    let link' := { link with url := absoluteUrl }
    ScoredLink.mk link' (calculateLinkRelevance link' keywords startContent))

/-- The body of `NavigationService.followLinks` after its session-resolution
step, over whatever store that step produced: extract the start page, record
it via `visitUrl(sessionId, …)` — whose `Session not found` throw
propagates — seed the result with the start page at relevance `1.0`, return
early on `depth ≤ 0`/`maxLinksToFollow ≤ 0` or a linkless start page, and
otherwise score, filter (threshold `0.1`, then domains, then keywords), sort,
take the top `maxLinksToFollow` links and run the recursive traversal;
finally derive `relatedTopics`. -/
def followLinksResolved (web : Web) (store1 : SessionStore) (sessionId : String)
    (params : FollowLinksParams) : Except NavError (FollowLinksResult × SessionStore) :=
  match web params.url with
  | none => .error (.extractFailed params.url)
  | some startContent =>
    match visitUrl web store1 sessionId params.url none with
    | .error e => .error e
    | .ok store2 =>
      let startPage : PageVisit :=
        { url := params.url, title := startContent.title, relevance := 1,
          summary := summaryOrGenerated startContent }
      let result0 : FollowLinksResult :=
        { startUrl := params.url, pagesVisited := [startPage],
          navigationPath := [params.url], relatedTopics := [] }
      if params.depth ≤ 0 ∨ params.maxLinksToFollow ≤ 0 then .ok (result0, store2)
      else
        let extractedLinks := startContent.links
        if extractedLinks.isEmpty then .ok (result0, store2)
        else
          match (if params.stayOnDomain then (hostname params.url).map (fun h => [h]) else some []) with
          | none => .error (.startUrlUnparsable params.url)
          | some includeDoms =>
            let options : NavigationOptions :=
              { followLinksFlag := true, maxDepth := params.depth,
                relevanceThreshold := mkRat 1 10, filterByKeywords := params.keywords,
                excludeDomains := [], includeDomains := includeDoms }
            let scoredLinks := scoreStartLinks params.url params.keywords startContent extractedLinks
            let filteredLinks := scoredLinks.filter
              (fun sl => options.relevanceThreshold ≤ sl.relevanceScore)
            let filteredLinks :=
              if !options.includeDomains.isEmpty then
                filteredLinks.filter (fun sl => domainAllowed options.includeDomains sl.link.url)
              else filteredLinks
            let filteredLinks :=
              if !options.filterByKeywords.isEmpty then
                filteredLinks.filter (fun sl => keywordAllowed options.filterByKeywords sl.link)
              else filteredLinks
            let sortedLinks := sortByScoreDesc filteredLinks
            let linksToFollow := sortedLinks.take params.maxLinksToFollow.toNat
            let st0 : TravState :=
              { visitedUrls := [params.url], pagesVisited := result0.pagesVisited,
                navigationPath := result0.navigationPath, store := store2 }
            let stFinal := followLinksRecursive web options sessionId
              (params.depth - 1).toNat params.url linksToFollow st0
            let result : FollowLinksResult :=
              { startUrl := params.url, pagesVisited := stFinal.pagesVisited,
                navigationPath := stFinal.navigationPath,
                relatedTopics := extractRelatedTopics stFinal.pagesVisited }
            .ok (result, stFinal.store)

/-- `NavigationService.followLinks(sessionId, params)`: resolve the session —
creating one under a fresh uuid (not under `sessionId`) when absent — then
run the traversal body. -/
def followLinks (web : Web) (store : SessionStore) (sessionId : String)
    (params : FollowLinksParams) : Except NavError (FollowLinksResult × SessionStore) :=
  let store1 :=
    match getSession store sessionId with
    | some _ => store
    | none => (createSession store (some (String.intercalate ", " params.keywords))).2
  followLinksResolved web store1 sessionId params

/-! ## Decidability and projection helpers -/

instance {ε α : Type} [DecidableEq ε] [DecidableEq α] : DecidableEq (Except ε α)
  | .ok x, .ok y => decidable_of_iff (x = y) (by simp)
  | .ok _, .error _ => isFalse (by simp)
  | .error _, .ok _ => isFalse (by simp)
  | .error e, .error f => decidable_of_iff (e = f) (by simp)

/-- The error of a navigation outcome, when it is one. -/
def navErrorOf {α : Type} : Except NavError α → Option NavError
  | .error e => some e
  | .ok _ => none

/-- The result record of a navigation outcome, when it succeeded. -/
def navResultOf : Except NavError (FollowLinksResult × SessionStore) → Option FollowLinksResult
  | .ok (r, _) => some r
  | .error _ => none

/-- The pages a navigation outcome visited (empty on failure). -/
def navPagesOf (r : Except NavError (FollowLinksResult × SessionStore)) : List PageVisit :=
  match r with
  | .ok (res, _) => res.pagesVisited
  | .error _ => []

/-- The invariant `followLinksRecursive` maintains on its threaded state: the
navigation path lists exactly the visited pages' URLs, those URLs are exactly
the traversal's visited-set in insertion order, and the visited-set is
duplicate-free. -/
def NavInv (st : TravState) : Prop :=
  st.navigationPath = st.pagesVisited.map PageVisit.url ∧
  st.pagesVisited.map PageVisit.url = st.visitedUrls ∧
  st.visitedUrls.Nodup

/-! ## Concrete inputs used by witnesses -/

/-- A start page with two outbound links, one of them back to itself. -/
def exampleDoc : EnhancedWebpageContent :=
  { url := "https://example.com/", title := "Alpha Beta", description := "", content := "",
    summary := "S.", format := .markdown,
    links := [⟨"https://example.com/b", "Beta link text", "ctx"⟩,
              ⟨"https://example.com/", "Home", ""⟩],
    images := [], structuredData := ⟨[], [], [], []⟩ }

/-- A second page whose only link points back to the start page. -/
def exampleDocB : EnhancedWebpageContent :=
  { url := "https://example.com/b", title := "Beta Gamma", description := "", content := "",
    summary := "SB.", format := .markdown,
    links := [⟨"https://example.com/", "Home again", ""⟩],
    images := [], structuredData := ⟨[], [], [], []⟩ }

/-- A two-page web with a link cycle between the pages. -/
def exampleWeb : Web := fun u =>
  if u == "https://example.com/" then some exampleDoc
  else if u == "https://example.com/b" then some exampleDocB
  else none

/-- The empty session store. -/
def emptyStore : SessionStore := ⟨[], 0⟩

/-- A pre-existing session. -/
def exampleSession : BrowsingSession :=
  { id := "sess-1", topic := none, currentUrl := none, history := [], bookmarks := [],
    sessionSummary := "New browsing session", researchQuestions := [] }

/-- A store holding `exampleSession` under `"sess-1"`. -/
def exampleStore : SessionStore := ⟨[("sess-1", exampleSession)], 1⟩

/-- Keywordless depth-2 navigation parameters for the example web. -/
def exampleParams : FollowLinksParams :=
  { url := "https://example.com/", keywords := [], maxLinksToFollow := 2, depth := 2,
    stayOnDomain := false }

/-- A source document for link-scoring examples. -/
def exampleSourceDoc : EnhancedWebpageContent :=
  { url := "https://example.com/", title := "", description := "", content := "",
    summary := "", format := .markdown, links := [], images := [],
    structuredData := ⟨[], [], [], []⟩ }

/-- A same-domain link matching no keyword, with five-character anchor text:
the input on which the code's and the spec's scoring formulas differ. -/
def exampleLink : ExtractedLink := ⟨"https://example.com/x", "hello", ""⟩

/-- A base document for extractor examples. -/
def exampleBaseDoc : WebpageContent :=
  { url := "https://example.com/", title := "T", description := "", content := "C.",
    summary := "S.", format := .markdown }

/-- A one-page network for extractor examples. -/
def exampleNet : Net := fun u =>
  if u == "https://example.com/" then some exampleBaseDoc else none

/-- A 51-entry cache (distinct keys, increasing timestamps), one over the
eviction bound. -/
def fullCache : ContentCache :=
  (List.range 51).map (fun i => ("k" ++ Nat.repr i, ⟨i, exampleBaseDoc⟩))

/-! # Theorems

## Link-scoring lemmas -/

lemma foldl_add_eq_sum {α : Type} (g : α → ℚ) :
    ∀ (l : List α) (a : ℚ), l.foldl (fun s x => s + g x) a = a + (l.map g).sum := by
  intro l
  induction l with
  | nil => intro a; simp
  | cons x xs ih =>
    intro a
    simp only [List.foldl_cons, List.map_cons, List.sum_cons, ih]
    ring

lemma linkKeywordStep_eq_add (link : ExtractedLink) (linkText : String) (s : ℚ) (kw : String) :
    linkKeywordStep link linkText s kw = s + linkKeywordContrib link linkText kw := by
  simp only [linkKeywordStep, linkKeywordContrib]
  split <;> split <;> split <;> ring

lemma foldl_linkKeywordStep (link : ExtractedLink) (linkText : String)
    (keywords : List String) (a : ℚ) :
    keywords.foldl (linkKeywordStep link linkText) a =
      a + (keywords.map (linkKeywordContrib link linkText)).sum := by
  have h : linkKeywordStep link linkText =
      fun s kw => s + linkKeywordContrib link linkText kw := by
    funext s kw
    exact linkKeywordStep_eq_add link linkText s kw
  rw [h, foldl_add_eq_sum]

lemma linkKeywordContrib_nonneg (link : ExtractedLink) (linkText kw : String) :
    0 ≤ linkKeywordContrib link linkText kw := by
  simp only [linkKeywordContrib]
  split <;> split <;> split <;> norm_num [Rat.mkRat_eq_div]

lemma linkKeywordContrib_le (link : ExtractedLink) (linkText kw : String) :
    linkKeywordContrib link linkText kw ≤ 7/10 := by
  simp only [linkKeywordContrib]
  split <;> split <;> split <;> norm_num [Rat.mkRat_eq_div]

lemma linkKeywordSum_nonneg (link : ExtractedLink) (linkText : String)
    (keywords : List String) :
    0 ≤ (keywords.map (linkKeywordContrib link linkText)).sum := by
  induction keywords with
  | nil => simp
  | cons kw kws ih =>
    simp only [List.map_cons, List.sum_cons]
    have := linkKeywordContrib_nonneg link linkText kw
    linarith

lemma linkKeywordSum_le (link : ExtractedLink) (linkText : String)
    (keywords : List String) :
    (keywords.map (linkKeywordContrib link linkText)).sum ≤ 7/10 * keywords.length := by
  induction keywords with
  | nil => simp
  | cons kw kws ih =>
    simp only [List.map_cons, List.sum_cons, List.length_cons]
    have := linkKeywordContrib_le link linkText kw
    push_cast
    linarith

/-- The sum-form characterisation of `calculateLinkRelevance` every scoring
claim factors through. -/
lemma calculateLinkRelevance_char (link : ExtractedLink) (keywords : List String)
    (src : EnhancedWebpageContent) :
    calculateLinkRelevance link keywords src = specLinkRelevanceAmended link keywords src := by
  unfold calculateLinkRelevance specLinkRelevanceAmended
  by_cases h : keywords.length = 0
  · simp [h]
  · simp only [h, if_false, foldl_linkKeywordStep, zero_add]
lemma domainBonus_cases (u pu : String) (s : ℚ) :
    domainBonus u pu s = s ∨ domainBonus u pu s = s + 1/10 := by
  unfold domainBonus
  rcases hostname u with _ | d1 <;> rcases hostname pu with _ | d2
  · left; rfl
  · left; rfl
  · left; rfl
  · dsimp only
    split
    · right; norm_num [Rat.mkRat_eq_div]
    · left; rfl

/-! ## C2 — link relevance vs. the spec §4.3 reference formula -/

/-- C2 (counterexample): the link scorer does not implement the reference
formula of spec §4.3.  For a same-domain link with five-character anchor text
and two unmatched keywords, the code normalises the `0.1` domain bonus by the
keyword count (yielding `0.05`) whereas the spec formula adds it after
normalisation (yielding `0.1`). -/
theorem calculateLinkRelevance_ne_specFormula :
    calculateLinkRelevance exampleLink ["q", "z"] exampleSourceDoc ≠
      specLinkRelevance exampleLink ["q", "z"] exampleSourceDoc := by
  have hl : hostname "https://example.com/x" = some "example.com" := by decide
  have hp : hostname "https://example.com/" = some "example.com" := by decide
  have h1 : calculateLinkRelevance exampleLink ["q", "z"] exampleSourceDoc = mkRat 1 20 := by
    simp +decide only [calculateLinkRelevance, linkKeywordStep, List.foldl, domainBonus,
      exampleLink, exampleSourceDoc, hl, hp]
    norm_num [Rat.mkRat_eq_div, min_def]
  have h2 : specLinkRelevance exampleLink ["q", "z"] exampleSourceDoc = mkRat 1 10 := by
    simp +decide only [specLinkRelevance, linkKeywordContrib, List.map, List.sum, domainBonus,
      exampleLink, exampleSourceDoc, hl, hp]
    norm_num [Rat.mkRat_eq_div, min_def, clamp01, max_def]
  rw [h1, h2]
  norm_num [Rat.mkRat_eq_div]

/-- C2 (amended): for every link, keyword list and source document the link
relevance score equals the §4.3 reference formula amended so that the domain
bonus and both anchor-length adjustments apply to the raw per-keyword sum
*before* the division by the keyword count, with a single final upper clamp
at 1 (and no intermediate clamp); the empty-keyword score is 0.6 as
specified. -/
theorem calculateLinkRelevance_eq_specAmended (link : ExtractedLink)
    (keywords : List String) (sourceDoc : EnhancedWebpageContent) :
    calculateLinkRelevance link keywords sourceDoc =
      specLinkRelevanceAmended link keywords sourceDoc :=
  calculateLinkRelevance_char link keywords sourceDoc

/-! ## C3 — the breadth cap across recursion levels -/

/-- C3 (code bug): the cap `min(3, max(1, 4 - remainingDepth))` on links
followed from a page *grows* as the remaining depth shrinks: a deeper level
(`remainingDepth = 1`) may follow 3 links while the shallower levels above it
(`remainingDepth = 2, 3`) are capped at 2 and 1 — the opposite of the
shrinking breadth the spec (and the code's own "Fewer links at deeper
levels" comment) describe. -/
theorem linkCap_growsAtDeeperLevels :
    linkCapAtDepth 1 = 3 ∧ linkCapAtDepth 2 = 2 ∧ linkCapAtDepth 3 = 1 ∧
      ¬ linkCapAtDepth 1 ≤ linkCapAtDepth 2 := by
  decide

lemma half_min_aux (T n : ℚ) (hn : 1 ≤ n) (hT0 : 0 ≤ T) (hTle : T ≤ n) :
    T * (1/2) / n ⊓ 1 = 1/2 * (T / n ⊓ 1) := by
  have hnpos : 0 < n := by linarith
  have h1 : T / n ≤ 1 := by rw [div_le_one hnpos]; linarith
  have h2 : T * (1/2) / n ≤ 1 := by rw [div_le_one hnpos]; nlinarith
  rw [min_eq_left h1, min_eq_left h2]
  ring

/-! ## C4 — the short-anchor-text halving -/

/-- C4: with a nonempty keyword list, a link whose anchor text is shorter
than 5 characters scores exactly half of a link with identical signals (same
target URL, same context, same per-keyword anchor-or-context occurrence) and
anchor length between 5 and 20. -/
theorem shortAnchor_halvesScore (l1 l2 : ExtractedLink) (keywords : List String)
    (src : EnhancedWebpageContent)
    (hne : keywords ≠ [])
    (hurl : l1.url = l2.url) (hctx : l1.context = l2.context)
    (hsig : ∀ kw ∈ keywords,
      includes (jsToLower (l1.text ++ " " ++ l1.context)) (jsToLower kw) =
        includes (jsToLower (l2.text ++ " " ++ l2.context)) (jsToLower kw))
    (hlen1 : l1.text.length < 5) (hlen2 : 5 ≤ l2.text.length) (hlen2' : l2.text.length ≤ 20) :
    calculateLinkRelevance l1 keywords src =
      1/2 * calculateLinkRelevance l2 keywords src := by
  have hn : keywords.length ≠ 0 := (List.length_pos.mpr hne).ne'
  rw [calculateLinkRelevance_char, calculateLinkRelevance_char]
  simp only [specLinkRelevanceAmended, hn, if_false]
  have hcontrib : ∀ kw ∈ keywords,
      linkKeywordContrib l1 (jsToLower (l1.text ++ " " ++ l1.context)) kw =
        linkKeywordContrib l2 (jsToLower (l2.text ++ " " ++ l2.context)) kw := by
    intro kw hkw
    have h1 := hsig kw hkw
    simp only [linkKeywordContrib]
    rw [h1, hurl, hctx]
  have hsum : (keywords.map (linkKeywordContrib l1 (jsToLower (l1.text ++ " " ++ l1.context)))).sum =
      (keywords.map (linkKeywordContrib l2 (jsToLower (l2.text ++ " " ++ l2.context)))).sum := by
    rw [List.map_congr_left hcontrib]
  rw [hsum, hurl]
  have hS0 : 0 ≤ (keywords.map (linkKeywordContrib l2 (jsToLower (l2.text ++ " " ++ l2.context)))).sum :=
    linkKeywordSum_nonneg l2 _ keywords
  have hSle : (keywords.map (linkKeywordContrib l2 (jsToLower (l2.text ++ " " ++ l2.context)))).sum ≤
      7/10 * keywords.length := linkKeywordSum_le l2 _ keywords
  rcases domainBonus_cases l2.url src.url
      ((keywords.map (linkKeywordContrib l2 (jsToLower (l2.text ++ " " ++ l2.context)))).sum) with hb | hb <;>
  · rw [hb, if_pos hlen1, if_neg (by omega : ¬ 20 < l1.text.length),
      if_neg (by omega : ¬ l2.text.length < 5), if_neg (by omega : ¬ 20 < l2.text.length)]
    have hn1 : (1 : ℚ) ≤ keywords.length := by
      exact_mod_cast List.length_pos.mpr hne
    have hnpos : (0 : ℚ) < keywords.length := by linarith
    set S := (keywords.map (linkKeywordContrib l2 (jsToLower (l2.text ++ " " ++ l2.context)))).sum
    rw [Rat.mkRat_eq_div]
    norm_num
    exact half_min_aux _ _ hn1 (by linarith) (by linarith)
/-- C4 witness: a concrete two-character-anchor link scoring exactly half of
its five-character-anchor counterpart with identical signals. -/
theorem shortAnchor_halvesScore_witness :
    calculateLinkRelevance ⟨"https://example.com/a", "ab", "energy stuff"⟩ ["energy"]
        exampleSourceDoc =
      1/2 * calculateLinkRelevance ⟨"https://example.com/a", "hello", "energy stuff"⟩ ["energy"]
        exampleSourceDoc :=
  shortAnchor_halvesScore _ _ _ _ (by decide) rfl rfl (by decide) (by decide) (by decide)
    (by decide)

/-! ## C1 — followLinks with an unknown session id -/

/-- C1 (code bug): called with a session id absent from the store,
`followLinks` does create a fresh session — but under a newly generated uuid,
while the subsequent `visitUrl(sessionId, url)` still uses the original id
and therefore throws `Session … not found`: the call fails instead of
completing with the visit recorded. -/
theorem followLinks_missingSession_sessionNotFound :
    followLinks exampleWeb emptyStore "missing" exampleParams =
      .error (.sessionNotFound "missing") ∧
    (createSession emptyStore
        (some (String.intercalate ", " exampleParams.keywords))).1.id ≠ "missing" := by
  decide
/-! ## C5 — depth ≤ 0 / maxLinksToFollow ≤ 0 returns only the start page -/

/-- C5: when the session resolves and the start page extracts, a traversal
with `depth ≤ 0` or `maxLinksToFollow ≤ 0` returns exactly the start page —
recorded at relevance `1.0` — with the navigation path holding only the start
URL and no related topics: no links are scored or followed. -/
theorem followLinks_depthZero_onlyStartPage (web : Web) (store : SessionStore)
    (sessionId : String) (params : FollowLinksParams) (startContent : EnhancedWebpageContent)
    (sess : BrowsingSession)
    (hsess : getSession store sessionId = some sess)
    (hweb : web params.url = some startContent)
    (hd : params.depth ≤ 0 ∨ params.maxLinksToFollow ≤ 0) :
    navResultOf (followLinks web store sessionId params) =
      some { startUrl := params.url,
             pagesVisited := [{ url := params.url, title := startContent.title,
                                relevance := 1, summary := summaryOrGenerated startContent }],
             navigationPath := [params.url], relatedTopics := [] } := by
  simp only [followLinks, followLinksResolved, visitUrl, hsess, hweb, if_pos hd, navResultOf]

/-- C5 witness: a depth-0 call on the example web visits exactly the start
page. -/
theorem followLinks_depthZero_onlyStartPage_witness :
    navResultOf (followLinks exampleWeb exampleStore "sess-1"
        { url := "https://example.com/", keywords := [], maxLinksToFollow := 2, depth := 0,
          stayOnDomain := false }) =
      some { startUrl := "https://example.com/",
             pagesVisited := [{ url := "https://example.com/", title := exampleDoc.title,
                                relevance := 1, summary := summaryOrGenerated exampleDoc }],
             navigationPath := ["https://example.com/"], relatedTopics := [] } :=
  followLinks_depthZero_onlyStartPage exampleWeb exampleStore "sess-1" _ exampleDoc
    exampleSession (by decide) (by decide) (Or.inl (by decide))
/-! ## C6 — no URL is visited twice within one traversal -/

lemma processLink_skip (web : Web) (options : NavigationOptions) (sessionId : String)
    (recurse : String → List ScoredLink → TravState → TravState)
    (remainingDepth : ℕ) (parentUrl : String) (link : ScoredLink) (st : TravState)
    (h : link.link.url ∈ st.visitedUrls) :
    processLink web options sessionId recurse remainingDepth parentUrl link st = st := by
  unfold processLink
  rw [if_pos (by simpa [List.contains, List.elem_iff] using h)]

lemma NavInv_append (st : TravState) (pv : PageVisit) (h : NavInv st)
    (hnew : pv.url ∉ st.visitedUrls) :
    NavInv { st with
      visitedUrls := st.visitedUrls ++ [pv.url],
      pagesVisited := st.pagesVisited ++ [pv],
      navigationPath := st.navigationPath ++ [pv.url] } := by
  obtain ⟨h1, h2, h3⟩ := h
  refine ⟨?_, ?_, ?_⟩
  · simp [h1, h2]
  · simp [h2]
  · simp only [List.nodup_append, h3, List.nodup_cons, List.not_mem_nil, not_false_iff,
      List.nodup_nil, and_true, true_and]
    intro a ha hb
    simp only [List.mem_singleton] at hb
    subst hb
    exact hnew ha

lemma NavInv_visitWrap (web : Web) (sessionId u : String) (p : Option String)
    (st : TravState) (h : NavInv st) :
    NavInv (match visitUrl web st.store sessionId u p with
            | .ok s => { st with store := s }
            | .error _ => st) := by
  split
  · exact h
  · exact h

lemma processLink_inv (web : Web) (options : NavigationOptions) (sessionId : String)
    (recurse : String → List ScoredLink → TravState → TravState)
    (hrec : ∀ parentUrl links st, NavInv st → NavInv (recurse parentUrl links st))
    (remainingDepth : ℕ) (parentUrl : String) (link : ScoredLink) (st : TravState)
    (h : NavInv st) :
    NavInv (processLink web options sessionId recurse remainingDepth parentUrl link st) := by
  unfold processLink
  split
  · exact h
  case isFalse hvis =>
    cases hw : web link.link.url with
    | none => exact h
    | some content =>
      have hnotmem : link.link.url ∉ st.visitedUrls := by
        intro hmem
        exact hvis (by simpa [List.contains, List.elem_iff] using hmem)
      have hst1 := NavInv_append st
        { url := link.link.url, title := content.title,
          relevance := calculateRelevanceScore content options.filterByKeywords,
          summary := summaryOrGenerated content } h hnotmem
      dsimp only
      refine NavInv_visitWrap web sessionId link.link.url (some parentUrl) _ ?_
      split
      · split
        · exact hrec _ _ _ hst1
        · exact hst1
      · exact hst1

lemma followLinksRecursive_inv (web : Web) (options : NavigationOptions) (sessionId : String) :
    ∀ (d : ℕ) (parentUrl : String) (links : List ScoredLink) (st : TravState),
      NavInv st → NavInv (followLinksRecursive web options sessionId d parentUrl links st) := by
  intro d
  induction d with
  | zero => intro parentUrl links st h; exact h
  | succ n ih =>
    intro parentUrl links
    induction links with
    | nil => intro st h; exact h
    | cons l ls ihl =>
      intro st h
      show NavInv ((l :: ls).foldl (fun acc link => processLink web options sessionId
        (followLinksRecursive web options sessionId n) (n + 1) parentUrl link acc) st)
      rw [List.foldl_cons]
      exact ihl _ (processLink_inv web options sessionId _
        (fun p lk s hs => ih p lk s hs) (n + 1) parentUrl l st h)
lemma followLinksRecursive_nodup (web : Web) (options : NavigationOptions)
    (sessionId : String) (d : ℕ) (parentUrl : String) (links : List ScoredLink)
    (st : TravState) (h : NavInv st) :
    (followLinksRecursive web options sessionId d parentUrl links st).navigationPath =
      (followLinksRecursive web options sessionId d parentUrl links st).pagesVisited.map
        PageVisit.url ∧
    (((followLinksRecursive web options sessionId d parentUrl links st).pagesVisited.map
      PageVisit.url)).Nodup := by
  obtain ⟨h1, h2, h3⟩ := followLinksRecursive_inv web options sessionId d parentUrl links st h
  refine ⟨h1, ?_⟩
  rw [h2]
  exact h3

lemma followLinksResolved_shape (web : Web) (store1 : SessionStore) (sessionId : String)
    (params : FollowLinksParams) (res : FollowLinksResult) (store' : SessionStore)
    (h : followLinksResolved web store1 sessionId params = .ok (res, store')) :
    res.navigationPath = res.pagesVisited.map PageVisit.url ∧
    (res.pagesVisited.map PageVisit.url).Nodup := by
  simp only [followLinksResolved] at h
  split at h
  · simp at h
  · split at h
    · simp at h
    · split at h
      · simp only [Except.ok.injEq, Prod.mk.injEq] at h
        obtain ⟨hres, hst⟩ := h
        subst hres
        constructor <;> simp
      · split at h
        · simp only [Except.ok.injEq, Prod.mk.injEq] at h
          obtain ⟨hres, hst⟩ := h
          subst hres
          constructor <;> simp
        · split at h
          · simp at h
          · simp only [Except.ok.injEq, Prod.mk.injEq] at h
            obtain ⟨hres, hst⟩ := h
            subst hres
            exact followLinksRecursive_nodup _ _ _ _ _ _ _ ⟨by simp, by simp, by simp⟩

/-- C6: within one traversal no URL is appended twice — every successful
`followLinks` call returns a duplicate-free `pagesVisited` list whose URLs
are exactly the navigation path, and a link whose URL is already in the
global visited-set is skipped outright by `followLinksRecursive` (no
extraction, no append: processing it is a no-op). -/
theorem followLinks_noRevisit (web : Web) (store : SessionStore) (sessionId : String)
    (params : FollowLinksParams) (res : FollowLinksResult) (store' : SessionStore)
    (h : followLinks web store sessionId params = .ok (res, store')) :
    (res.pagesVisited.map PageVisit.url).Nodup ∧
    res.navigationPath = res.pagesVisited.map PageVisit.url ∧
    ∀ (options : NavigationOptions) (d : ℕ) (parentUrl : String) (link : ScoredLink)
      (rest : List ScoredLink) (st : TravState), link.link.url ∈ st.visitedUrls →
      followLinksRecursive web options sessionId d parentUrl (link :: rest) st =
        followLinksRecursive web options sessionId d parentUrl rest st := by
  have hskip : ∀ (options : NavigationOptions) (d : ℕ) (parentUrl : String) (link : ScoredLink)
      (rest : List ScoredLink) (st : TravState), link.link.url ∈ st.visitedUrls →
      followLinksRecursive web options sessionId d parentUrl (link :: rest) st =
        followLinksRecursive web options sessionId d parentUrl rest st := by
    intro options d parentUrl link rest st hmem
    cases d with
    | zero => rfl
    | succ n =>
      show (link :: rest).foldl _ st = rest.foldl _ st
      rw [List.foldl_cons, processLink_skip web options sessionId _ _ _ _ _ hmem]
  have hmain := followLinksResolved_shape web _ sessionId params res store' h
  exact ⟨hmain.2, hmain.1, hskip⟩
/-- C6 witness: a depth-2 traversal of the example web — whose pages link
back to the start URL — visits each URL at most once. -/
theorem followLinks_noRevisit_witness :
    ((navPagesOf (followLinks exampleWeb exampleStore "sess-1" exampleParams)).map
        PageVisit.url).Nodup :=
  (followLinks_noRevisit exampleWeb exampleStore "sess-1" exampleParams _ _ rfl).1

/-! ## Cache-map lemmas (C7, C8, C9) -/

lemma mapGet_eq_none_iff (c : ContentCache) (k : String) :
    mapGet c k = none ↔ ∀ p ∈ c, p.1 ≠ k := by
  simp [mapGet, List.find?_eq_none]

lemma mapSet_absent (c : ContentCache) (k : String) (e : ContentCacheEntry)
    (h : ∀ p ∈ c, p.1 ≠ k) : mapSet c k e = c ++ [(k, e)] := by
  unfold mapSet
  rw [if_neg]
  simp only [List.any_eq_true, beq_iff_eq, not_exists]
  intro p
  rintro ⟨hp, hpk⟩
  exact h p hp hpk

lemma mapGet_append_of_none (c : ContentCache) (k : String) (e : ContentCacheEntry)
    (h : mapGet c k = none) : mapGet (c ++ [(k, e)]) k = some e := by
  induction c with
  | nil => simp [mapGet]
  | cons p ps ih =>
    simp only [mapGet, List.find?] at h ⊢
    cases hpk : (p.1 == k) with
    | true => simp [hpk] at h
    | false =>
      simp only [hpk] at h ⊢
      exact ih h

lemma mapGet_mapDelete_ne (c : ContentCache) (k' k : String) (h : k' ≠ k) :
    mapGet (mapDelete c k') k = mapGet c k := by
  induction c with
  | nil => rfl
  | cons p ps ih =>
    simp only [mapGet, mapDelete, List.filter] at ih ⊢
    cases hpk : (p.1 == k') with
    | true =>
      have hp : p.1 = k' := by simpa using hpk
      have : (p.1 == k) = false := by simp [hp, h]
      simp only [hpk, Bool.not_true, List.find?, this]
      exact ih
    | false =>
      simp only [hpk, Bool.not_false, List.find?]
      cases hk : (p.1 == k) with
      | true => rfl
      | false => exact ih

lemma mapDelete_of_absent (c : ContentCache) (k : String) (h : ∀ p ∈ c, p.1 ≠ k) :
    mapDelete c k = c := by
  induction c with
  | nil => rfl
  | cons p ps ih =>
    simp only [mapDelete, List.filter]
    have hp : (p.1 == k) = false := by
      simpa using h p (List.mem_cons_self p ps)
    simp only [hp, Bool.not_false]
    rw [show List.filter (fun p => !(p.1 == k)) ps = mapDelete ps k from rfl,
      ih (fun q hq => h q (List.mem_cons_of_mem p hq))]

lemma length_mapDelete_mem (c : ContentCache) (k : String)
    (hnd : (c.map Prod.fst).Nodup) (hmem : k ∈ c.map Prod.fst) :
    (mapDelete c k).length + 1 = c.length := by
  induction c with
  | nil => simp at hmem
  | cons p ps ih =>
    simp only [List.map_cons, List.nodup_cons] at hnd
    simp only [List.map_cons, List.mem_cons] at hmem
    simp only [mapDelete, List.filter]
    rcases hmem with hk | hk
    · have hp : (p.1 == k) = true := by simp [hk]
      have habs : ∀ q ∈ ps, q.1 ≠ k := by
        intro q hq hqk
        refine hnd.1 ?_
        rw [← hk, ← hqk]
        exact List.mem_map_of_mem Prod.fst hq
      simp only [hp, Bool.not_true]
      rw [show List.filter (fun q => !(q.1 == k)) ps = mapDelete ps k from rfl,
        mapDelete_of_absent ps k habs]
      simp
    · have hp : (p.1 == k) = false := by
        simp only [beq_eq_false_iff_ne, ne_eq]
        intro hpk
        exact hnd.1 (hpk ▸ hk)
      simp only [hp, Bool.not_false, List.length_cons]
      rw [show List.filter (fun q => !(q.1 == k)) ps = mapDelete ps k from rfl,
        ih hnd.2 hk]

lemma keys_map_mapSet (c : ContentCache) (k : String) (e : ContentCacheEntry) :
    (mapSet c k e).map Prod.fst = c.map Prod.fst ∨
    (mapSet c k e).map Prod.fst = c.map Prod.fst ++ [k] := by
  unfold mapSet
  split
  · left
    rw [List.map_map]
    apply List.map_congr_left
    intro p _
    by_cases hpk : p.1 = k
    · simp [hpk]
    · simp [hpk]
  · right
    simp

lemma nodupKeys_mapSet (c : ContentCache) (k : String) (e : ContentCacheEntry)
    (hnd : (c.map Prod.fst).Nodup) : ((mapSet c k e).map Prod.fst).Nodup := by
  rcases keys_map_mapSet c k e with h | h
  · rw [h]; exact hnd
  · rw [h]
    by_cases hk : k ∈ c.map Prod.fst
    · exfalso
      unfold mapSet at h
      split at h
      · simp at h
        have := congrArg List.length h
        simp at this
      · rename_i hany
        refine hany ?_
        simp only [List.any_eq_true, beq_iff_eq]
        obtain ⟨p, hp, hpk⟩ := List.mem_map.mp hk
        exact ⟨p, hp, hpk⟩
    · simp only [List.nodup_append, List.nodup_cons, List.not_mem_nil, not_false_iff,
        List.nodup_nil, and_true, true_and, hnd]
      intro a ha hb
      simp only [List.mem_singleton] at hb
      exact hk (hb ▸ ha)
lemma foldl_olderEntry_some_acc (c : ContentCache) :
    ∀ (q : String × ContentCacheEntry), (c.foldl olderEntry (some q)).isSome := by
  induction c with
  | nil => intro q; rfl
  | cons p ps ih =>
    intro q
    simp only [List.foldl_cons, olderEntry]
    split <;> exact ih _

lemma oldestEntry_isSome (c : ContentCache) (h : c ≠ []) : (oldestEntry c).isSome := by
  cases c with
  | nil => exact absurd rfl h
  | cons p ps =>
    show (List.foldl olderEntry (olderEntry none p) ps).isSome
    exact foldl_olderEntry_some_acc ps p

lemma foldl_olderEntry_spec (c : ContentCache) :
    ∀ (acc : Option (String × ContentCacheEntry)) (p : String × ContentCacheEntry),
      c.foldl olderEntry acc = some p →
      (p ∈ c ∨ acc = some p) ∧ (∀ q ∈ c, p.2.timestamp ≤ q.2.timestamp) ∧
        (∀ a, acc = some a → p.2.timestamp ≤ a.2.timestamp) := by
  induction c with
  | nil =>
    intro acc p h
    refine ⟨Or.inr h, by simp, ?_⟩
    intro a ha
    rw [ha] at h
    cases h
    exact le_refl _
  | cons x xs ih =>
    intro acc p h
    rw [List.foldl_cons] at h
    obtain ⟨hmem, hmin, hacc⟩ := ih (olderEntry acc x) p h
    have hx : p.2.timestamp ≤ x.2.timestamp := by
      cases acc with
      | none =>
        have := hacc x rfl
        exact this
      | some q =>
        simp only [olderEntry] at hacc
        split at hacc
        · exact hacc x rfl
        · rename_i hlt
          have hq := hacc q rfl
          have : x.2.timestamp ≥ q.2.timestamp := le_of_not_lt hlt
          exact le_trans hq this
    refine ⟨?_, ?_, ?_⟩
    · rcases hmem with hm | hm
      · exact Or.inl (List.mem_cons_of_mem x hm)
      · cases acc with
        | none =>
          simp only [olderEntry] at hm
          cases hm
          exact Or.inl (List.mem_cons_self x xs)
        | some q =>
          simp only [olderEntry] at hm
          split at hm
          · cases hm; exact Or.inl (List.mem_cons_self x xs)
          · exact Or.inr hm
    · intro q hq
      rcases List.mem_cons.mp hq with hq | hq
      · exact hq ▸ hx
      · exact hmin q hq
    · intro a ha
      subst ha
      cases' hacc' : olderEntry (some a) x with b
      · simp only [olderEntry] at hacc'
        split at hacc' <;> cases hacc'
      · have := hacc b hacc'
        simp only [olderEntry] at hacc'
        split at hacc'
        · rename_i hlt
          cases hacc'
          exact le_trans this (le_of_lt hlt)
        · cases hacc'
          exact this

lemma oldestEntry_spec (c : ContentCache) (p : String × ContentCacheEntry)
    (h : oldestEntry c = some p) :
    p ∈ c ∧ ∀ q ∈ c, p.2.timestamp ≤ q.2.timestamp := by
  obtain ⟨hmem, hmin, _⟩ := foldl_olderEntry_spec c none p h
  refine ⟨?_, hmin⟩
  rcases hmem with hm | hm
  · exact hm
  · cases hm

lemma oldestEntry_append_last (c : ContentCache) (x : String × ContentCacheEntry)
    (hne : c ≠ []) (hle : ∀ q ∈ c, q.2.timestamp ≤ x.2.timestamp) :
    oldestEntry (c ++ [x]) = oldestEntry c := by
  unfold oldestEntry
  rw [List.foldl_append, List.foldl_cons, List.foldl_nil]
  obtain ⟨p, hp⟩ := Option.isSome_iff_exists.mp (oldestEntry_isSome c hne)
  rw [show List.foldl olderEntry none c = oldestEntry c from rfl, hp]
  obtain ⟨hmem, _⟩ := oldestEntry_spec c p hp
  simp only [olderEntry]
  rw [if_neg (not_lt.mpr (hle p hmem))]
/-- Putting a fresh key into the cache leaves it retrievable: the eviction
(if any) removes an older entry, never the one just inserted. -/
lemma mapGet_cacheContent_fresh (cache : ContentCache) (url : String)
    (format : OutputFormat) (now : ℕ) (doc : WebpageContent)
    (hnd : (cache.map Prod.fst).Nodup)
    (habsent : mapGet cache (generateCacheKey url format) = none)
    (hold : ∀ p ∈ cache, p.2.timestamp ≤ now) :
    mapGet (cacheContent cache url format now doc) (generateCacheKey url format) =
      some ⟨now, doc⟩ := by
  have hne : ∀ p ∈ cache, p.1 ≠ generateCacheKey url format :=
    (mapGet_eq_none_iff cache _).mp habsent
  have hset : mapSet cache (generateCacheKey url format) ⟨now, doc⟩ =
      cache ++ [(generateCacheKey url format, ⟨now, doc⟩)] :=
    mapSet_absent cache _ _ hne
  have hget : mapGet (cache ++ [(generateCacheKey url format, ⟨now, doc⟩)])
      (generateCacheKey url format) = some ⟨now, doc⟩ :=
    mapGet_append_of_none cache _ _ habsent
  unfold cacheContent
  rw [hset]
  dsimp only
  split
  case isTrue hlen =>
    have hcne : cache ≠ [] := by
      intro hc
      rw [hc] at hlen
      simp at hlen
    rw [oldestEntry_append_last cache _ hcne (fun q hq => hold q hq)]
    obtain ⟨p, hp⟩ := Option.isSome_iff_exists.mp (oldestEntry_isSome cache hcne)
    rw [hp]
    obtain ⟨hmem, _⟩ := oldestEntry_spec cache p hp
    rw [mapGet_mapDelete_ne _ _ _ (hne p hmem)]
    exact hget
  case isFalse => exact hget

/-! ## C7 — a repeat extraction within the TTL is a cache hit -/

/-- C7: starting from a cache with no entry for the key (all existing entries
inserted no later than the first call), a first `extractContent` call fetches
over the network, and a second call for the same `(url, format)` within the
TTL window is a pure cache hit — it returns the stored document, performs no
network I/O, and leaves the cache untouched: exactly one network fetch across
the two calls. -/
theorem extractContent_cacheHit_singleFetch (net : Net) (cache : ContentCache)
    (url : String) (format : OutputFormat) (t1 t2 : ℕ) (doc : WebpageContent)
    (hnd : (cache.map Prod.fst).Nodup)
    (habsent : mapGet cache (generateCacheKey url format) = none)
    (hold : ∀ p ∈ cache, p.2.timestamp ≤ t1)
    (hvalid : isValidUrl url = true)
    (hnet : net url = some doc)
    (httl : t2 - t1 < cacheTTL) :
    extractContent net t1 cache url format =
      (.ok (finalizeDoc doc url format),
       cacheContent cache url format t1 (finalizeDoc doc url format), true) ∧
    extractContent net t2 (cacheContent cache url format t1 (finalizeDoc doc url format))
        url format =
      (.ok (finalizeDoc doc url format),
       cacheContent cache url format t1 (finalizeDoc doc url format), false) := by
  constructor
  · simp only [extractContent, hvalid, Bool.not_true, Bool.false_eq_true, if_false, habsent,
      hnet]
  · have hget := mapGet_cacheContent_fresh cache url format t1 (finalizeDoc doc url format)
      hnd habsent hold
    have hvalid2 : isCacheValid ⟨t1, finalizeDoc doc url format⟩ t2 = true := by
      simp only [isCacheValid, decide_eq_true_eq]
      exact httl
    simp only [extractContent, hvalid, Bool.not_true, Bool.false_eq_true, if_false, hget,
      hvalid2, if_true]

/-- C7 witness: two extractions of the example URL from an empty cache at
times 0 and 5 — one fetch, then a hit. -/
theorem extractContent_cacheHit_singleFetch_witness :
    extractContent exampleNet 0 [] "https://example.com/" .markdown =
      (.ok (finalizeDoc exampleBaseDoc "https://example.com/" .markdown),
       cacheContent [] "https://example.com/" .markdown 0
         (finalizeDoc exampleBaseDoc "https://example.com/" .markdown), true) ∧
    extractContent exampleNet 5
        (cacheContent [] "https://example.com/" .markdown 0
          (finalizeDoc exampleBaseDoc "https://example.com/" .markdown))
        "https://example.com/" .markdown =
      (.ok (finalizeDoc exampleBaseDoc "https://example.com/" .markdown),
       cacheContent [] "https://example.com/" .markdown 0
         (finalizeDoc exampleBaseDoc "https://example.com/" .markdown), false) :=
  extractContent_cacheHit_singleFetch exampleNet [] "https://example.com/" .markdown 0 5
    exampleBaseDoc (by decide) (by decide) (by decide) (by decide) (by decide) (by decide)

/-! ## C8 — eviction removes exactly one, oldest-timestamp, entry -/

/-- C8: a put that drives the entry count beyond the 50-entry bound evicts
exactly one entry — the map shrinks by one relative to the post-`set` state —
and the evicted entry carries the least insertion timestamp in the map
(ties resolving to the earliest-inserted, as JS's stable sort does). -/
theorem cacheContent_evictsOldest (cache : ContentCache) (url : String)
    (format : OutputFormat) (now : ℕ) (doc : WebpageContent)
    (hnd : (cache.map Prod.fst).Nodup)
    (hlen : 50 < (mapSet cache (generateCacheKey url format) ⟨now, doc⟩).length) :
    ∃ oldest,
      oldestEntry (mapSet cache (generateCacheKey url format) ⟨now, doc⟩) = some oldest ∧
      oldest ∈ mapSet cache (generateCacheKey url format) ⟨now, doc⟩ ∧
      (∀ q ∈ mapSet cache (generateCacheKey url format) ⟨now, doc⟩,
        oldest.2.timestamp ≤ q.2.timestamp) ∧
      cacheContent cache url format now doc =
        mapDelete (mapSet cache (generateCacheKey url format) ⟨now, doc⟩) oldest.1 ∧
      (cacheContent cache url format now doc).length + 1 =
        (mapSet cache (generateCacheKey url format) ⟨now, doc⟩).length := by
  have hne : mapSet cache (generateCacheKey url format) ⟨now, doc⟩ ≠ [] := by
    intro hc
    rw [hc] at hlen
    simp at hlen
  obtain ⟨p, hp⟩ := Option.isSome_iff_exists.mp
    (oldestEntry_isSome (mapSet cache (generateCacheKey url format) ⟨now, doc⟩) hne)
  obtain ⟨hmem, hmin⟩ := oldestEntry_spec _ p hp
  have heq : cacheContent cache url format now doc =
      mapDelete (mapSet cache (generateCacheKey url format) ⟨now, doc⟩) p.1 := by
    unfold cacheContent
    rw [if_pos hlen, hp]
  refine ⟨p, hp, hmem, hmin, heq, ?_⟩
  rw [heq]
  exact length_mapDelete_mem _ _ (nodupKeys_mapSet cache _ _ hnd)
    (List.mem_map_of_mem Prod.fst hmem)

/-- C8 witness: putting a 52nd entry into the 51-entry example cache evicts
exactly the oldest one. -/
theorem cacheContent_evictsOldest_witness :
    ∃ oldest,
      oldestEntry (mapSet fullCache (generateCacheKey "https://example.com/" .markdown)
        ⟨60, exampleBaseDoc⟩) = some oldest ∧
      oldest ∈ mapSet fullCache (generateCacheKey "https://example.com/" .markdown)
        ⟨60, exampleBaseDoc⟩ ∧
      (∀ q ∈ mapSet fullCache (generateCacheKey "https://example.com/" .markdown)
        ⟨60, exampleBaseDoc⟩, oldest.2.timestamp ≤ q.2.timestamp) ∧
      cacheContent fullCache "https://example.com/" .markdown 60 exampleBaseDoc =
        mapDelete (mapSet fullCache (generateCacheKey "https://example.com/" .markdown)
          ⟨60, exampleBaseDoc⟩) oldest.1 ∧
      (cacheContent fullCache "https://example.com/" .markdown 60 exampleBaseDoc).length + 1 =
        (mapSet fullCache (generateCacheKey "https://example.com/" .markdown)
          ⟨60, exampleBaseDoc⟩).length :=
  cacheContent_evictsOldest fullCache "https://example.com/" .markdown 60 exampleBaseDoc
    (by decide) (by decide)

/-! ## C9 — a failed fetch surfaces the error and leaves the cache alone -/

/-- C9: on a cache miss whose network fetch fails, `extractContent` returns
the fetch error after one attempted network call, the cache afterwards equals
the cache before, and no entry exists for the requested `(url, format)`
key. -/
theorem extractContent_fetchFailure_noCache (net : Net) (now : ℕ) (cache : ContentCache)
    (url : String) (format : OutputFormat)
    (hvalid : isValidUrl url = true)
    (habsent : mapGet cache (generateCacheKey url format) = none)
    (hnet : net url = none) :
    extractContent net now cache url format = (.error .fetchFailed, cache, true) ∧
    mapGet (extractContent net now cache url format).2.1 (generateCacheKey url format) =
      none := by
  have h1 : extractContent net now cache url format = (.error .fetchFailed, cache, true) := by
    simp only [extractContent, hvalid, Bool.not_true, Bool.false_eq_true, if_false, habsent,
      hnet]
  exact ⟨h1, by rw [h1]; exact habsent⟩

/-- C9 witness: a network that always fails yields the fetch error and an
unchanged, still-empty cache. -/
theorem extractContent_fetchFailure_noCache_witness :
    extractContent (fun _ => none) 7 [] "https://example.com/" .markdown =
      (.error .fetchFailed, [], true) ∧
    mapGet (extractContent (fun _ => none) 7 [] "https://example.com/" .markdown).2.1
      (generateCacheKey "https://example.com/" .markdown) = none :=
  extractContent_fetchFailure_noCache (fun _ => none) 7 [] "https://example.com/" .markdown
    (by decide) (by decide) rfl
/-! ## C10 — a failing enhancement step never fails the extraction -/

/-- C10: when base extraction succeeds, `extractEnhancedContent` succeeds no
matter what the enhancement step does; if the secondary fetch/parsing throws,
the result is the base document with empty links, images and structured data —
and a page with an empty link list contributes zero links to any traversal
that visits it (`selectChildLinks` selects nothing from it at any depth). -/
theorem enhanceContent_failureSafe (net : Net) (enh : Enh) (now : ℕ) (cache : ContentCache)
    (url : String) (format : OutputFormat) (base : WebpageContent)
    (cache' : ContentCache) (fetched : Bool)
    (hbase : extractContent net now cache url format = (.ok base, cache', fetched))
    (henh : enh url = none) :
    extractEnhancedContent net enh now cache url format =
      (.ok { toWebpageContent := base, links := [], images := [],
             structuredData := ⟨[], [], [], []⟩ }, cache', fetched) ∧
    (enhanceContent enh base url).links = [] ∧
    ∀ (options : NavigationOptions) (remainingDepth : ℕ),
      selectChildLinks options (enhanceContent enh base url) remainingDepth = [] := by
  have he : enhanceContent enh base url =
      { toWebpageContent := base, links := [], images := [],
        structuredData := ⟨[], [], [], []⟩ } := by
    simp [enhanceContent, henh]
  refine ⟨?_, by rw [he], ?_⟩
  · simp only [extractEnhancedContent, hbase, he]
  · intro options remainingDepth
    rw [he]
    simp only [selectChildLinks, sortByScoreDesc, List.map_nil]
    split <;> split <;> split <;> simp

/-- C10 witness: extracting the example URL with an always-failing
enhancement oracle yields the base document with empty enhancements, and no
child links are selected from it. -/
theorem enhanceContent_failureSafe_witness :
    extractEnhancedContent exampleNet (fun _ => none) 0 [] "https://example.com/" .markdown =
      (.ok { toWebpageContent := finalizeDoc exampleBaseDoc "https://example.com/" .markdown,
             links := [], images := [], structuredData := ⟨[], [], [], []⟩ },
       cacheContent [] "https://example.com/" .markdown 0
         (finalizeDoc exampleBaseDoc "https://example.com/" .markdown), true) ∧
    (enhanceContent (fun _ => none)
      (finalizeDoc exampleBaseDoc "https://example.com/" .markdown) "https://example.com/").links
        = [] ∧
    ∀ (options : NavigationOptions) (remainingDepth : ℕ),
      selectChildLinks options
        (enhanceContent (fun _ => none)
          (finalizeDoc exampleBaseDoc "https://example.com/" .markdown) "https://example.com/")
        remainingDepth = [] :=
  enhanceContent_failureSafe exampleNet (fun _ => none) 0 [] "https://example.com/" .markdown
    (finalizeDoc exampleBaseDoc "https://example.com/" .markdown)
    (cacheContent [] "https://example.com/" .markdown 0
      (finalizeDoc exampleBaseDoc "https://example.com/" .markdown)) true (by decide) rfl
end GoogleResearchMcp
